import Mathlib

/-!
Verification development for the scrap-dump repository: a paginated
property-tax scraper with three near-identical extractor variants
(turbo `index.ts`, a legacy variant, and a worker module), a batch
scheduler with adaptive concurrency, a retrying page fetcher that
checkpoints raw pages, and two aggregation modes (live run and replay
of checkpointed pages).

The embedding models the HTML layer abstractly: a raw page is the list
of its table rows in document order, each row the list of its cells in
order, each cell carrying its text and the href of its first anchor (if
any).  This is exactly the interface the source consumes through
cheerio (`table tr`, `td`, `.text()`, `.find('a').attr('href')`).
Machine arithmetic: all counters are small naturals; JavaScript
`Math.floor(c * 0.7)` on the integer concurrency values arising here
equals natural-number `c * 7 / 10`.
-/

namespace ScrapDump

/-- One table cell: its text content and the href of the first anchor
inside it, if any (cheerio `.find('a').attr('href')`). -/
structure Cell where
  text : String
  href : Option String
deriving DecidableEq

/-- Abstraction of one raw HTML page: the cells of each `table tr` row
in document order. -/
structure RawContent where
  rows : List (List Cell)
deriving DecidableEq

/-- One extracted property record, mirroring the `PropertyData`
interface shared by all three source variants. -/
structure PropertyData where
  slNo : String
  pid : String
  ward : String
  mohalla : String
  chkNo : String
  houseNo : String
  ownerName : String
  mobile : String
  viewDetailsLink : String
deriving DecidableEq

/-- The remote site's origin, prepended to a relative detail-view href
(`https://www.jhansipropertytax.com/` in every variant). -/
def siteOrigin : String := "https://www.jhansipropertytax.com/"

/-- JS `String.prototype.trim`: drop whitespace from both ends
(modelled character-listwise so that it evaluates by `decide`/`rfl`). -/
def jsTrim (s : String) : String :=
  ⟨(((s.data.dropWhile Char.isWhitespace).reverse.dropWhile Char.isWhitespace).reverse)⟩

/-- JS `/^\d+$/.test s`: `s` is nonempty and every character is a
decimal digit. -/
def isDigits (s : String) : Bool :=
  s.length > 0 && s.data.all (fun c => c.isDigit)

/-- Text of the i-th `td` of a row; `$(cells[i]).text()` is the empty
string when the cell does not exist. -/
def cellText (row : List Cell) (i : Nat) : String :=
  ((row[i]?).map Cell.text).getD ""

/-- Href of the first anchor in the i-th `td`;
`$(cells[i]).find('a').attr('href') || ''` collapses a missing cell, a
missing anchor and a missing attribute all to the empty string. -/
def cellHref (row : List Cell) (i : Nat) : String :=
  ((row[i]?).bind Cell.href).getD ""

/-- The body of the `$('table tr').each` callback of `parsePropertyData`
in `index.ts`: a row with at least 8 cells whose trimmed first cell is
all digits pushes one record onto the accumulator; every other row is
skipped. -/
def extractStep (properties : List PropertyData) (row : List Cell) : List PropertyData :=
  if row.length ≥ 8 then
    let slNo := jsTrim (cellText row 0)
    if isDigits slNo then
      let viewLink := cellHref row 8
      properties ++ [{ slNo := slNo,
                       pid := jsTrim (cellText row 1),
                       ward := jsTrim (cellText row 2),
                       mohalla := jsTrim (cellText row 3),
                       chkNo := jsTrim (cellText row 4),
                       houseNo := jsTrim (cellText row 5),
                       ownerName := jsTrim (cellText row 6),
                       mobile := jsTrim (cellText row 7),
                       viewDetailsLink := if viewLink = "" then "" else siteOrigin ++ viewLink }]
    else properties
  else properties

/-- `parsePropertyData` from the turbo variant (`src/index.ts`): fold
the `each` callback over the table rows in document order. -/
def parsePropertyData (html : RawContent) : List PropertyData :=
  html.rows.foldl extractStep []

/-- `parsePropertyData` from the legacy variant (`src/unnamed/part_001`),
transcribed independently; its callback body is token-for-token the same
as the turbo one. -/
def parsePropertyDataLegacy (html : RawContent) : List PropertyData :=
  html.rows.foldl
    (fun properties row =>
      if row.length ≥ 8 then
        let slNo := jsTrim (cellText row 0)
        if isDigits slNo then
          let viewLink := cellHref row 8
          properties ++ [{ slNo := slNo,
                           pid := jsTrim (cellText row 1),
                           ward := jsTrim (cellText row 2),
                           mohalla := jsTrim (cellText row 3),
                           chkNo := jsTrim (cellText row 4),
                           houseNo := jsTrim (cellText row 5),
                           ownerName := jsTrim (cellText row 6),
                           mobile := jsTrim (cellText row 7),
                           viewDetailsLink := if viewLink = "" then "" else siteOrigin ++ viewLink }]
        else properties
      else properties)
    []

/-- `parsePropertyDataWorker` from `src/scraper-worker.ts`, transcribed
independently; again the callback body is identical. -/
def parsePropertyDataWorker (html : RawContent) : List PropertyData :=
  html.rows.foldl
    (fun properties row =>
      if row.length ≥ 8 then
        let slNo := jsTrim (cellText row 0)
        if isDigits slNo then
          let viewLink := cellHref row 8
          properties ++ [{ slNo := slNo,
                           pid := jsTrim (cellText row 1),
                           ward := jsTrim (cellText row 2),
                           mohalla := jsTrim (cellText row 3),
                           chkNo := jsTrim (cellText row 4),
                           houseNo := jsTrim (cellText row 5),
                           ownerName := jsTrim (cellText row 6),
                           mobile := jsTrim (cellText row 7),
                           viewDetailsLink := if viewLink = "" then "" else siteOrigin ++ viewLink }]
        else properties
      else properties)
    []

/-- The qualification test applied to a row by the extractors: at least
8 cells and an all-digit trimmed first cell. -/
def rowQualifies (row : List Cell) : Bool :=
  decide (row.length ≥ 8) && isDigits (jsTrim (cellText row 0))

/-- The record a qualifying row is extracted to. -/
def rowRecord (row : List Cell) : PropertyData :=
  let viewLink := cellHref row 8
  { slNo := jsTrim (cellText row 0),
    pid := jsTrim (cellText row 1),
    ward := jsTrim (cellText row 2),
    mohalla := jsTrim (cellText row 3),
    chkNo := jsTrim (cellText row 4),
    houseNo := jsTrim (cellText row 5),
    ownerName := jsTrim (cellText row 6),
    mobile := jsTrim (cellText row 7),
    viewDetailsLink := if viewLink = "" then "" else siteOrigin ++ viewLink }

/-! ## Page fetcher (`fetchPage` in the turbo and legacy variants)

The fetcher's environment is an oracle `attempts : Nat → AttemptOutcome`
giving, for each `retryCount`, what happens inside the corresponding
`try` block: the network fetch may throw (timeout, transport error, or a
response status that fails `validateStatus` / the explicit non-200
check), or the fetch may succeed and the checkpoint write
(`fs.mkdir` / `fs.writeFile`) may throw, or everything succeeds.  A page
number is not modelled: the oracle already is the behaviour of the
environment for one fixed page. -/

/-- What happens inside one `try` block of `fetchPage` for a given
`retryCount`. -/
inductive AttemptOutcome where
  | netError
  | checkpointError (content : RawContent)
  | ok (content : RawContent)
deriving DecidableEq

/-- How one call to `fetchPage` settles, as seen by its awaiter:
`ok` is a normally resolved promise, `fault` an exception escaping
`fetchPage` (which would surface to the range-scrape caller). -/
inductive FetchResult where
  | ok (records : List PropertyData)
  | fault (msg : String)
deriving DecidableEq

/-- Observable trace of one `fetchPage` call: how it settled, the
backoff delays awaited (in order), and the raw contents successfully
written to the checkpoint store. -/
structure FetchRun where
  result : FetchResult
  delays : List Nat
  checkpointed : List RawContent
deriving DecidableEq

/-- Turbo backoff (`index.ts`):
`Math.min(2000 * Math.pow(2, retryCount), 10000)`. -/
def backoffTurbo (retryCount : Nat) : Nat := min (2000 * 2 ^ retryCount) 10000

/-- Legacy backoff (`part_001`): `2000 * (retryCount + 1)`. -/
def backoffLegacy (retryCount : Nat) : Nat := 2000 * (retryCount + 1)

/-- `fetchPage` of the turbo variant (`src/index.ts`), from a given
`retryCount`: on a successful attempt, parse and checkpoint, then
resolve with the records; on any caught error, if `retryCount < 3`,
await the backoff delay and recurse with `retryCount + 1`, else resolve
with the empty list. -/
def fetchPageAux (attempts : Nat → AttemptOutcome) (retryCount : Nat) : FetchRun :=
  match attempts retryCount with
  | .ok content =>
      { result := .ok (parsePropertyData content), delays := [],
        checkpointed := [content] }
  | .netError =>
      if retryCount < 3 then
        let rest := fetchPageAux attempts (retryCount + 1)
        { rest with delays := backoffTurbo retryCount :: rest.delays }
      else { result := .ok [], delays := [], checkpointed := [] }
  | .checkpointError _ =>
      if retryCount < 3 then
        let rest := fetchPageAux attempts (retryCount + 1)
        { rest with delays := backoffTurbo retryCount :: rest.delays }
      else { result := .ok [], delays := [], checkpointed := [] }
termination_by 3 - retryCount
decreasing_by all_goals omega

/-- `fetchPage` of the legacy variant (`src/unnamed/part_001`):
identical retry structure, but the awaited delay is
`2000 * (retryCount + 1)` (linear, uncapped). -/
def fetchPageLegacyAux (attempts : Nat → AttemptOutcome) (retryCount : Nat) : FetchRun :=
  match attempts retryCount with
  | .ok content =>
      { result := .ok (parsePropertyDataLegacy content), delays := [],
        checkpointed := [content] }
  | .netError =>
      if retryCount < 3 then
        let rest := fetchPageLegacyAux attempts (retryCount + 1)
        { rest with delays := backoffLegacy retryCount :: rest.delays }
      else { result := .ok [], delays := [], checkpointed := [] }
  | .checkpointError _ =>
      if retryCount < 3 then
        let rest := fetchPageLegacyAux attempts (retryCount + 1)
        { rest with delays := backoffLegacy retryCount :: rest.delays }
      else { result := .ok [], delays := [], checkpointed := [] }
termination_by 3 - retryCount
decreasing_by all_goals omega

/-- The record list a page task observes from
`await fetchPage(pageNo)`; the `fault` branch is dead code
(`fetchPage` always resolves, see `fetchPageAux_result_ok`). -/
def fetchRecords (attempts : Nat → AttemptOutcome) : List PropertyData :=
  match (fetchPageAux attempts 0).result with
  | .ok records => records
  | .fault _ => []

/-! ## Batch scheduler (`scrapeAllPages` in `src/index.ts`) -/

/-- `BATCH_SIZE = 50`. -/
def BATCH_SIZE : Nat := 50

/-- `TOTAL_PAGES = 7022`, the default `endPage`. -/
def TOTAL_PAGES : Nat := 7022

/-- `CONCURRENT_REQUESTS = CPU_CORES >= 8 ? 20 : Math.max(CPU_CORES * 3, 12)`,
the initial adaptive concurrency, as a function of the core count. -/
def CONCURRENT_REQUESTS (cpuCores : Nat) : Nat :=
  if cpuCores ≥ 8 then 20 else max (cpuCores * 3) 12

/-- The batch bounds produced by the outer loop of `scrapeAllPages`:
`batchStart` advances by `BATCH_SIZE` while `batchStart <= endPage`,
and each batch ends at `Math.min(batchStart + BATCH_SIZE - 1, endPage)`. -/
def batchList (batchStart endPage : Nat) : List (Nat × Nat) :=
  if batchStart ≤ endPage then
    (batchStart, min (batchStart + (BATCH_SIZE - 1)) endPage) ::
      batchList (batchStart + BATCH_SIZE) endPage
  else []
termination_by endPage + 1 - batchStart
decreasing_by simp [BATCH_SIZE]; omega

/-- The page numbers of one batch, in task-creation order
(`for (let pageNo = batchStart; pageNo <= batchEnd; pageNo++)`). -/
def batchPages (b : Nat × Nat) : List Nat := List.range' b.1 (b.2 + 1 - b.1)

/-- All page numbers the scheduler dispatches for a range, one task per
page, batches in order. -/
def dispatchedPages (startPage endPage : Nat) : List Nat :=
  ((batchList startPage endPage).map batchPages).flatten

/-- The scheduler's mutable counters
(`currentConcurrency`, `failureCount`, `completedPages`). -/
structure SchedState where
  currentConcurrency : Nat
  failureCount : Nat
  completedPages : Nat
deriving DecidableEq

/-- The adaptation step at the top of each batch iteration:
`if (failureCount > 10) { currentConcurrency = Math.max(3,
Math.floor(currentConcurrency * 0.7)); failureCount = 0; }`.
On the natural concurrency values arising here JS
`Math.floor(c * 0.7)` equals `c * 7 / 10` in natural division. -/
def adaptConcurrency (st : SchedState) : SchedState :=
  if st.failureCount > 10 then
    { st with currentConcurrency := max 3 (st.currentConcurrency * 7 / 10),
              failureCount := 0 }
  else st

/-- One task settling inside a batch:
`if (properties.length === 0) failureCount++; completedPages++;`. -/
def settleTask (st : SchedState) (records : List PropertyData) : SchedState :=
  { st with
    failureCount := if records.length = 0 then st.failureCount + 1 else st.failureCount,
    completedPages := st.completedPages + 1 }

/-- All tasks of one batch settling, given the per-page record lists
produced by `fetchPage` (the event-loop serialises the counter
updates; `Promise.all` preserves task order). -/
def runBatch (oracle : Nat → List PropertyData) (st : SchedState) (pages : List Nat) :
    SchedState :=
  pages.foldl (fun st p => settleTask st (oracle p)) st

/-- One iteration of the outer batch loop: adapt the concurrency, then
run the batch's tasks. -/
def runStep (oracle : Nat → List PropertyData) (st : SchedState) (b : Nat × Nat) :
    SchedState :=
  runBatch oracle (adaptConcurrency st) (batchPages b)

/-- The scheduler states observed at batch boundaries: the initial
state, then the state after each successive batch. -/
def stateTrace (oracle : Nat → List PropertyData) (st : SchedState) :
    List (Nat × Nat) → List SchedState
  | [] => [st]
  | b :: bs => st :: stateTrace oracle (runStep oracle st b) bs

/-- The aggregated record list of `scrapeAllPages`: per batch,
`Promise.all` yields the page results in task order and
`batchResults.forEach(p => allProperties.push(...p))` appends them. -/
def scrapeAllPages (oracle : Nat → List PropertyData) (startPage endPage : Nat) :
    List PropertyData :=
  (batchList startPage endPage).foldl
    (fun allProperties b => allProperties ++ ((batchPages b).map oracle).flatten) []

/-! ## Request handler (`app.post('/turbo-scrape')`) and aggregator -/

/-- The summary the `/turbo-scrape` handler sends.  The handler has no
input validation at all: it runs `scrapeAllPages`, writes the artifact
and answers `success: true`; its `catch` (answering `success: false`)
fires only if an exception escapes, and `scrapeAllPages` never throws
for any page range (every per-page fault is absorbed inside
`fetchPage`, see the fetcher lemmas). -/
structure TurboResponse where
  success : Bool
  totalProperties : Nat
  pagesProcessed : Int
deriving DecidableEq

/-- The `/turbo-scrape` handler on an already-defaulted body
`{startPage, endPage}`. -/
def turboScrape (oracle : Nat → List PropertyData) (startPage endPage : Nat) :
    TurboResponse :=
  let properties := scrapeAllPages oracle startPage endPage
  { success := true,
    totalProperties := properties.length,
    pagesProcessed := (endPage : Int) - (startPage : Int) + 1 }

/-- Aggregator replay mode (`app.post('/combine-pages')`): read each
checkpointed page in enumeration order, re-extract, and append
(`allProperties.push(...properties)`). -/
def combinePages (stored : List RawContent) : List PropertyData :=
  stored.foldl (fun allProperties content => allProperties ++ parsePropertyData content) []

/-- Aggregator post-run mode over an abstract completion order: the
per-page record lists of a live run over `content`, concatenated in the
order the pages completed.  `scrapeAllPages` instantiates this with the
dispatch order (see `scrapeAllPages_eq_flatten`). -/
def aggregateLive (content : Nat → RawContent) (completionOrder : List Nat) :
    List PropertyData :=
  (completionOrder.map (fun p => parsePropertyData (content p))).flatten

/-! ## Sample data for concrete instances -/

/-- A row with exactly 8 cells whose first cell is numeric (no 9th
link cell at all). -/
def eightCellRow : List Cell :=
  [⟨"1", none⟩, ⟨"1/14/13117", none⟩, ⟨"WARD", none⟩, ⟨"MOHALLA", none⟩,
   ⟨"14", none⟩, ⟨"1", none⟩, ⟨"Mr. X", none⟩, ⟨"000****000", none⟩]

/-- A full 9-cell row with a detail-view link in the 9th cell. -/
def nineCellRow : List Cell :=
  [⟨"1", none⟩, ⟨"1/14/13117", none⟩, ⟨"WARD", none⟩, ⟨"MOHALLA", none⟩,
   ⟨"14", none⟩, ⟨"1", none⟩, ⟨"Mr. X", none⟩, ⟨"000****000", none⟩,
   ⟨"View", some "detailsByPropnonew.php?property_no=1/14/13117"⟩]

/-- A header-like row whose first cell is "N/A". -/
def naRow : List Cell :=
  [⟨"N/A", none⟩, ⟨"", none⟩, ⟨"", none⟩, ⟨"", none⟩,
   ⟨"", none⟩, ⟨"", none⟩, ⟨"", none⟩, ⟨"", none⟩]

/-- A sample page holding one qualifying row. -/
def samplePage : RawContent := ⟨[nineCellRow]⟩

/-! ## Theorems -/

theorem extractStep_eq (properties : List PropertyData) (row : List Cell) :
    extractStep properties row =
      if rowQualifies row then properties ++ [rowRecord row] else properties := by
  unfold extractStep rowQualifies rowRecord
  by_cases h8 : row.length ≥ 8
  · by_cases hd : isDigits (jsTrim (cellText row 0))
    · simp [h8, hd]
    · simp [h8, hd]
  · simp [h8]

theorem foldl_extractStep (rows : List (List Cell)) (acc : List PropertyData) :
    rows.foldl extractStep acc = acc ++ (rows.filter rowQualifies).map rowRecord := by
  induction rows generalizing acc with
  | nil => simp
  | cons row rest ih =>
    rw [List.foldl_cons, ih, extractStep_eq]
    by_cases h : rowQualifies row <;> simp [h]

theorem fetchPageAux_ok_eq (attempts : Nat → AttemptOutcome) (k : Nat) (c : RawContent)
    (h : attempts k = AttemptOutcome.ok c) :
    fetchPageAux attempts k =
      { result := .ok (parsePropertyData c), delays := [], checkpointed := [c] } := by
  rw [fetchPageAux.eq_def, h]

theorem fetchPageAux_retry (attempts : Nat → AttemptOutcome) (k : Nat)
    (h : ∀ c, attempts k ≠ AttemptOutcome.ok c) (hk : k < 3) :
    fetchPageAux attempts k =
      { result := (fetchPageAux attempts (k + 1)).result,
        delays := backoffTurbo k :: (fetchPageAux attempts (k + 1)).delays,
        checkpointed := (fetchPageAux attempts (k + 1)).checkpointed } := by
  rcases ho : attempts k with _ | c | c
  · rw [fetchPageAux.eq_def, ho]; simp [hk]
  · rw [fetchPageAux.eq_def, ho]; simp [hk]
  · exact absurd ho (h c)

theorem fetchPageAux_stop (attempts : Nat → AttemptOutcome) (k : Nat)
    (h : ∀ c, attempts k ≠ AttemptOutcome.ok c) (hk : ¬ k < 3) :
    fetchPageAux attempts k = { result := .ok [], delays := [], checkpointed := [] } := by
  rcases ho : attempts k with _ | c | c
  · rw [fetchPageAux.eq_def, ho]; simp [hk]
  · rw [fetchPageAux.eq_def, ho]; simp [hk]
  · exact absurd ho (h c)

theorem fetchPageAux_result_ok (attempts : Nat → AttemptOutcome) (retryCount : Nat) :
    ∃ records, (fetchPageAux attempts retryCount).result = FetchResult.ok records := by
  by_cases hok : ∃ c, attempts retryCount = AttemptOutcome.ok c
  · obtain ⟨c, hc⟩ := hok
    exact ⟨parsePropertyData c, by rw [fetchPageAux_ok_eq attempts retryCount c hc]⟩
  · push_neg at hok
    by_cases hk : retryCount < 3
    · have ih := fetchPageAux_result_ok attempts (retryCount + 1)
      rw [fetchPageAux_retry attempts retryCount hok hk]
      exact ih
    · exact ⟨[], by rw [fetchPageAux_stop attempts retryCount hok hk]⟩
termination_by 3 - retryCount
decreasing_by all_goals omega

theorem fetchPageAux_delays (attempts : Nat → AttemptOutcome) (retryCount : Nat) :
    ∃ n, n ≤ 3 - retryCount ∧
      (fetchPageAux attempts retryCount).delays =
        (List.range' retryCount n).map backoffTurbo := by
  by_cases hok : ∃ c, attempts retryCount = AttemptOutcome.ok c
  · obtain ⟨c, hc⟩ := hok
    exact ⟨0, by omega, by rw [fetchPageAux_ok_eq attempts retryCount c hc]; simp⟩
  · push_neg at hok
    by_cases hk : retryCount < 3
    · obtain ⟨n, hn, hd⟩ := fetchPageAux_delays attempts (retryCount + 1)
      refine ⟨n + 1, by omega, ?_⟩
      rw [fetchPageAux_retry attempts retryCount hok hk]
      simp [hd, List.range'_succ]
    · exact ⟨0, by omega, by rw [fetchPageAux_stop attempts retryCount hok hk]; simp⟩
termination_by 3 - retryCount
decreasing_by all_goals omega

theorem fetchPageAux_exhaust (attempts : Nat → AttemptOutcome) (retryCount : Nat)
    (hk3 : retryCount ≤ 3)
    (hfail : ∀ j, retryCount ≤ j → j ≤ 3 → ∀ c, attempts j ≠ AttemptOutcome.ok c) :
    (fetchPageAux attempts retryCount).result = FetchResult.ok [] ∧
    (fetchPageAux attempts retryCount).delays.length = 3 - retryCount ∧
    (fetchPageAux attempts retryCount).checkpointed = [] := by
  have hcur : ∀ c, attempts retryCount ≠ AttemptOutcome.ok c :=
    hfail retryCount (Nat.le_refl _) hk3
  by_cases hk : retryCount < 3
  · have ih := fetchPageAux_exhaust attempts (retryCount + 1) (by omega)
      (fun j hj1 hj2 c => hfail j (by omega) hj2 c)
    rw [fetchPageAux_retry attempts retryCount hcur hk]
    refine ⟨ih.1, ?_, ih.2.2⟩
    simp [ih.2.1]
    omega
  · rw [fetchPageAux_stop attempts retryCount hcur hk]
    refine ⟨rfl, ?_, rfl⟩
    simp
    omega
termination_by 3 - retryCount
decreasing_by all_goals omega

theorem fetchRecords_first_ok (attempts : Nat → AttemptOutcome) (content : RawContent)
    (h : attempts 0 = AttemptOutcome.ok content) :
    fetchRecords attempts = parsePropertyData content := by
  rw [fetchRecords, fetchPageAux_ok_eq attempts 0 content h]

theorem fetchPageLegacyAux_retry (attempts : Nat → AttemptOutcome) (k : Nat)
    (h : ∀ c, attempts k ≠ AttemptOutcome.ok c) (hk : k < 3) :
    fetchPageLegacyAux attempts k =
      { result := (fetchPageLegacyAux attempts (k + 1)).result,
        delays := backoffLegacy k :: (fetchPageLegacyAux attempts (k + 1)).delays,
        checkpointed := (fetchPageLegacyAux attempts (k + 1)).checkpointed } := by
  rcases ho : attempts k with _ | c | c
  · rw [fetchPageLegacyAux.eq_def, ho]; simp [hk]
  · rw [fetchPageLegacyAux.eq_def, ho]; simp [hk]
  · exact absurd ho (h c)

theorem fetchPageLegacyAux_stop (attempts : Nat → AttemptOutcome) (k : Nat)
    (h : ∀ c, attempts k ≠ AttemptOutcome.ok c) (hk : ¬ k < 3) :
    fetchPageLegacyAux attempts k = { result := .ok [], delays := [], checkpointed := [] } := by
  rcases ho : attempts k with _ | c | c
  · rw [fetchPageLegacyAux.eq_def, ho]; simp [hk]
  · rw [fetchPageLegacyAux.eq_def, ho]; simp [hk]
  · exact absurd ho (h c)

theorem fetchPageLegacyAux_delays (attempts : Nat → AttemptOutcome) (retryCount : Nat) :
    ∃ n, n ≤ 3 - retryCount ∧
      (fetchPageLegacyAux attempts retryCount).delays =
        (List.range' retryCount n).map backoffLegacy := by
  by_cases hok : ∃ c, attempts retryCount = AttemptOutcome.ok c
  · obtain ⟨c, hc⟩ := hok
    refine ⟨0, by omega, ?_⟩
    rw [fetchPageLegacyAux.eq_def, hc]
    simp
  · push_neg at hok
    by_cases hk : retryCount < 3
    · obtain ⟨n, hn, hd⟩ := fetchPageLegacyAux_delays attempts (retryCount + 1)
      refine ⟨n + 1, by omega, ?_⟩
      rw [fetchPageLegacyAux_retry attempts retryCount hok hk]
      simp [hd, List.range'_succ]
    · exact ⟨0, by omega, by rw [fetchPageLegacyAux_stop attempts retryCount hok hk]; simp⟩
termination_by 3 - retryCount
decreasing_by all_goals omega

theorem fetchPageLegacyAux_exhaust (attempts : Nat → AttemptOutcome) (retryCount : Nat)
    (hk3 : retryCount ≤ 3)
    (hfail : ∀ j, retryCount ≤ j → j ≤ 3 → ∀ c, attempts j ≠ AttemptOutcome.ok c) :
    (fetchPageLegacyAux attempts retryCount).result = FetchResult.ok [] ∧
    (fetchPageLegacyAux attempts retryCount).delays.length = 3 - retryCount := by
  have hcur : ∀ c, attempts retryCount ≠ AttemptOutcome.ok c :=
    hfail retryCount (Nat.le_refl _) hk3
  by_cases hk : retryCount < 3
  · have ih := fetchPageLegacyAux_exhaust attempts (retryCount + 1) (by omega)
      (fun j hj1 hj2 c => hfail j (by omega) hj2 c)
    rw [fetchPageLegacyAux_retry attempts retryCount hcur hk]
    refine ⟨ih.1, ?_⟩
    simp [ih.2]
    omega
  · rw [fetchPageLegacyAux_stop attempts retryCount hcur hk]
    refine ⟨rfl, ?_⟩
    simp
    omega
termination_by 3 - retryCount
decreasing_by all_goals omega

theorem batchList_neg (batchStart endPage : Nat) (h : ¬ batchStart ≤ endPage) :
    batchList batchStart endPage = [] := by
  rw [batchList.eq_def]
  simp [h]

theorem batchList_pos (batchStart endPage : Nat) (h : batchStart ≤ endPage) :
    batchList batchStart endPage =
      (batchStart, min (batchStart + 49) endPage) :: batchList (batchStart + 50) endPage := by
  rw [batchList.eq_def]
  simp [h, BATCH_SIZE]

theorem dispatched_eq_aux (n : Nat) :
    ∀ s e : Nat, e + 1 - s ≤ n → dispatchedPages s e = List.range' s (e + 1 - s) := by
  induction n with
  | zero =>
    intro s e hle
    have h : ¬ s ≤ e := by omega
    simp [dispatchedPages, batchList_neg s e h]
    omega
  | succ n ih =>
    intro s e hle
    by_cases h : s ≤ e
    · rw [dispatchedPages, batchList_pos s e h, List.map_cons, List.flatten_cons]
      have hrest : ((batchList (s + 50) e).map batchPages).flatten =
          List.range' (s + 50) (e + 1 - (s + 50)) := by
        have := ih (s + 50) e (by omega)
        simpa [dispatchedPages] using this
      rw [hrest]
      by_cases hfull : s + 49 ≤ e
      · have hmin : min (s + 49) e = s + 49 := by omega
        rw [batchPages, hmin]
        have h50 : s + 49 + 1 - s = 50 := by omega
        rw [h50]
        rw [List.range'_append_1 s 50 (e + 1 - (s + 50))]
        congr 1
        omega
      · have hmin : min (s + 49) e = e := by omega
        rw [batchPages, hmin]
        have hz : e + 1 - (s + 50) = 0 := by omega
        rw [hz]
        simp
    · simp [dispatchedPages, batchList_neg s e h]
      omega

theorem dispatched_eq_range' (s e : Nat) :
    dispatchedPages s e = List.range' s (e + 1 - s) :=
  dispatched_eq_aux (e + 1 - s) s e (Nat.le_refl _)

theorem batchList_size_aux (n : Nat) :
    ∀ s e : Nat, e + 1 - s ≤ n →
      ∀ b ∈ batchList s e, b.1 ≤ b.2 ∧ b.2 + 1 - b.1 ≤ 50 := by
  induction n with
  | zero =>
    intro s e hle b hb
    have h : ¬ s ≤ e := by omega
    rw [batchList_neg s e h] at hb
    exact absurd hb (List.not_mem_nil b)
  | succ n ih =>
    intro s e hle b hb
    by_cases h : s ≤ e
    · rw [batchList_pos s e h] at hb
      rcases List.mem_cons.mp hb with hb | hb
      · subst hb
        constructor <;> simp <;> omega
      · exact ih (s + 50) e (by omega) b hb
    · rw [batchList_neg s e h] at hb
      exact absurd hb (List.not_mem_nil b)

theorem batchList_size (s e : Nat) (b : Nat × Nat) (hb : b ∈ batchList s e) :
    b.1 ≤ b.2 ∧ (batchPages b).length ≤ 50 := by
  have h := batchList_size_aux (e + 1 - s) s e (Nat.le_refl _) b hb
  exact ⟨h.1, by simp [batchPages]; omega⟩

theorem foldl_append_flatten {α β : Type} (f : α → List β) :
    ∀ (l : List α) (acc : List β),
      l.foldl (fun acc x => acc ++ f x) acc = acc ++ (l.map f).flatten := by
  intro l
  induction l with
  | nil => intro acc; simp
  | cons x rest ih => intro acc; simp [ih]

theorem scrapeAllPages_eq_flatten (oracle : Nat → List PropertyData) (s e : Nat) :
    scrapeAllPages oracle s e = ((dispatchedPages s e).map oracle).flatten := by
  rw [scrapeAllPages,
    foldl_append_flatten (fun b => ((batchPages b).map oracle).flatten) (batchList s e) []]
  simp [dispatchedPages, List.map_map, Function.comp_def, List.map_flatten,
    List.flatten_flatten]

theorem combinePages_eq (stored : List RawContent) :
    combinePages stored = (stored.map parsePropertyData).flatten := by
  rw [combinePages, foldl_append_flatten parsePropertyData stored []]
  simp

theorem runBatch_concurrency (oracle : Nat → List PropertyData) (pages : List Nat) :
    ∀ st : SchedState, (runBatch oracle st pages).currentConcurrency = st.currentConcurrency := by
  induction pages with
  | nil => intro st; rfl
  | cons p rest ih =>
    intro st
    rw [runBatch, List.foldl_cons]
    exact ih (settleTask st (oracle p))

theorem adaptConcurrency_le (st : SchedState) (h3 : 3 ≤ st.currentConcurrency) :
    (adaptConcurrency st).currentConcurrency ≤ st.currentConcurrency := by
  rw [adaptConcurrency]
  by_cases h : st.failureCount > 10 <;> simp [h]
  omega

theorem adaptConcurrency_floor (st : SchedState) (h3 : 3 ≤ st.currentConcurrency) :
    3 ≤ (adaptConcurrency st).currentConcurrency := by
  rw [adaptConcurrency]
  by_cases h : st.failureCount > 10 <;> simp [h]
  exact h3

theorem adaptConcurrency_change (st : SchedState)
    (h : (adaptConcurrency st).currentConcurrency ≠ st.currentConcurrency) :
    10 < st.failureCount ∧
    (adaptConcurrency st).currentConcurrency = max 3 (st.currentConcurrency * 7 / 10) ∧
    (adaptConcurrency st).failureCount = 0 := by
  by_cases hf : st.failureCount > 10
  · exact ⟨hf, by simp [adaptConcurrency, hf], by simp [adaptConcurrency, hf]⟩
  · exact absurd (by simp [adaptConcurrency, hf]) h

theorem runStep_concurrency (oracle : Nat → List PropertyData) (st : SchedState)
    (b : Nat × Nat) :
    (runStep oracle st b).currentConcurrency = (adaptConcurrency st).currentConcurrency := by
  rw [runStep]
  exact runBatch_concurrency oracle (batchPages b) (adaptConcurrency st)

theorem stateTrace_head (oracle : Nat → List PropertyData) (st : SchedState)
    (l : List (Nat × Nat)) : (stateTrace oracle st l).head? = some st := by
  cases l <;> rfl

/-! ## Claim theorems -/

/-- C1, counterexample: a row with exactly 8 cells and a numeric first
cell does produce a record (with an empty detail-view link), so the
claim that a record is emitted only for rows with at least 9 cells is
false of the code, which tests `cells.length >= 8`. -/
theorem c1_eight_cell_row_yields_record :
    eightCellRow.length = 8 ∧
    parsePropertyData ⟨[eightCellRow]⟩ =
      [{ slNo := "1", pid := "1/14/13117", ward := "WARD", mohalla := "MOHALLA",
         chkNo := "14", houseNo := "1", ownerName := "Mr. X", mobile := "000****000",
         viewDetailsLink := "" }] := by
  constructor
  · rfl
  · rfl

/-- C1 (amended): for every raw page content, the extractor emits one
record exactly for each table row that has at least 8 cells and whose
trimmed first cell matches the regular expression of one or more
digits, in document order; every row with fewer than 8 cells, or whose
trimmed first cell is empty or non-numeric (e.g. "N/A"), contributes no
record. -/
theorem c1_extraction_characterization (html : RawContent) :
    parsePropertyData html = (html.rows.filter rowQualifies).map rowRecord := by
  rw [parsePropertyData, foldl_extractStep]
  simp

/-- C8: the record extractor is a pure, deterministic, total Lean
function: on identical content two calls agree definitionally, and
content in which no row qualifies (in particular, content with zero
table rows or only malformed rows) yields the empty sequence rather
than any fault. -/
theorem c8_extractor_pure_total (html : RawContent)
    (h : ∀ row ∈ html.rows, rowQualifies row = false) :
    parsePropertyData html = parsePropertyData html ∧ parsePropertyData html = [] := by
  refine ⟨rfl, ?_⟩
  rw [parsePropertyData, foldl_extractStep]
  have hf : html.rows.filter rowQualifies = [] :=
    List.filter_eq_nil_iff.mpr (fun row hm => by simp [h row hm])
  simp [hf]

/-- C8, witness: a page whose single row has first cell "N/A"
satisfies the no-qualifying-row hypothesis and extracts to the empty
sequence. -/
theorem c8_extractor_pure_total_inst :
    (∀ row ∈ (RawContent.mk [naRow]).rows, rowQualifies row = false) ∧
    parsePropertyData (RawContent.mk [naRow]) = [] :=
  ⟨by decide, (c8_extractor_pure_total (RawContent.mk [naRow]) (by decide)).2⟩

/-- C10: the three extractor implementations (turbo
`parsePropertyData`, legacy `parsePropertyData`, and
`parsePropertyDataWorker`) are extensionally equal: on every input
content all three return the same record sequence. -/
theorem c10_extractor_variants_agree (html : RawContent) :
    parsePropertyData html = parsePropertyDataLegacy html ∧
    parsePropertyDataLegacy html = parsePropertyDataWorker html :=
  ⟨rfl, rfl⟩

/-- C2, counterexample: for the invalid range startPage = 2,
endPage = 1 the `/turbo-scrape` handler answers `success: true` (an
empty success summary), not a failure: there is no range validation in
the handler or in `scrapeAllPages`. -/
theorem c2_invalid_range_reports_success :
    (turboScrape (fun _ => []) 2 1).success = true ∧
    dispatchedPages 2 1 = [] ∧
    (turboScrape (fun _ => []) 2 1).totalProperties = 0 := by
  refine ⟨rfl, ?_, ?_⟩
  · rw [dispatchedPages, batchList_neg 2 1 (by omega)]
    rfl
  · show (scrapeAllPages (fun _ => []) 2 1).length = 0
    rw [scrapeAllPages, batchList_neg 2 1 (by omega)]
    rfl

/-- C2 (amended): a range-scrape request with startPage > endPage is
not rejected; the batch loop runs zero iterations, so no page task is
dispatched (hence no fetch is attempted and no checkpoint is written),
and the caller receives a success summary reporting zero records. -/
theorem c2_invalid_range_no_dispatch (oracle : Nat → List PropertyData) (s e : Nat)
    (h : e < s) :
    batchList s e = [] ∧ dispatchedPages s e = [] ∧ scrapeAllPages oracle s e = [] ∧
    (turboScrape oracle s e).success = true ∧
    (turboScrape oracle s e).totalProperties = 0 := by
  have hb : batchList s e = [] := batchList_neg s e (by omega)
  refine ⟨hb, ?_, ?_, rfl, ?_⟩
  · rw [dispatchedPages, hb]
    rfl
  · rw [scrapeAllPages, hb]
    rfl
  · show (scrapeAllPages oracle s e).length = 0
    rw [scrapeAllPages, hb]
    rfl

/-- C2, witness: the amended statement instantiated at
startPage = 5, endPage = 3. -/
theorem c2_invalid_range_no_dispatch_inst :
    (3 : Nat) < 5 ∧
    (batchList 5 3 = [] ∧ dispatchedPages 5 3 = [] ∧
      scrapeAllPages (fun _ => []) 5 3 = [] ∧
      (turboScrape (fun _ => []) 5 3).success = true ∧
      (turboScrape (fun _ => []) 5 3).totalProperties = 0) :=
  ⟨by decide, c2_invalid_range_no_dispatch (fun _ => []) 5 3 (by decide)⟩

/-- C3, counterexample: with every attempt failing at the checkpoint
write (fetch succeeded, `fs.mkdir`/`fs.writeFile` threw), `fetchPage`
still resolves normally with the empty record list after three backoff
retries — the checkpoint I/O fault is absorbed into the page's result,
not propagated to the range-scrape caller as a failure. -/
theorem c3_checkpoint_fault_absorbed_concrete :
    (fetchPageAux (fun _ => AttemptOutcome.checkpointError ⟨[]⟩) 0).result =
      FetchResult.ok [] ∧
    (fetchPageAux (fun _ => AttemptOutcome.checkpointError ⟨[]⟩) 0).delays =
      [2000, 4000, 8000] := by
  constructor <;> simp [fetchPageAux, backoffTurbo]

/-- C3 (amended): a checkpoint write failure is caught by the page
task's catch-all handler and treated exactly like a transient fetch
fault: retried up to 3 times, and on exhaustion the task settles
normally with an empty record list and an empty checkpoint trace; no
fault ever propagates out of `fetchPage` to the range-scrape caller. -/
theorem c3_checkpoint_fault_absorbed (attempts : Nat → AttemptOutcome)
    (h : ∀ j, j ≤ 3 → ∃ c, attempts j = AttemptOutcome.checkpointError c) :
    (fetchPageAux attempts 0).result = FetchResult.ok [] ∧
    (fetchPageAux attempts 0).delays.length = 3 ∧
    (fetchPageAux attempts 0).checkpointed = [] := by
  have hfail : ∀ j, 0 ≤ j → j ≤ 3 → ∀ c, attempts j ≠ AttemptOutcome.ok c := by
    intro j _ hj c hc
    obtain ⟨c', hc'⟩ := h j hj
    rw [hc'] at hc
    exact AttemptOutcome.noConfusion hc
  have := fetchPageAux_exhaust attempts 0 (by omega) hfail
  simpa using this

/-- C3, witness: the amended statement at the oracle whose every
attempt is a checkpoint write failure on the empty page. -/
theorem c3_checkpoint_fault_absorbed_inst :
    (∀ j : Nat, j ≤ 3 →
      ∃ c, (fun _ : Nat => AttemptOutcome.checkpointError (RawContent.mk [])) j =
        AttemptOutcome.checkpointError c) ∧
    ((fetchPageAux (fun _ => AttemptOutcome.checkpointError (RawContent.mk [])) 0).result =
        FetchResult.ok [] ∧
      (fetchPageAux (fun _ => AttemptOutcome.checkpointError (RawContent.mk [])) 0).delays.length = 3 ∧
      (fetchPageAux (fun _ => AttemptOutcome.checkpointError (RawContent.mk [])) 0).checkpointed = []) :=
  ⟨fun _ _ => ⟨RawContent.mk [], rfl⟩,
    c3_checkpoint_fault_absorbed _ (fun _ _ => ⟨RawContent.mk [], rfl⟩)⟩

/-- C4, counterexample: the legacy fetcher's backoff is linear
`2000 * (k + 1)`, not the claimed `min(2000 * 2^k, 10000)`: on an
always-failing page its delays are [2000, 4000, 6000], while the
claimed formula gives 8000 for the third delay. -/
theorem c4_legacy_backoff_not_exponential :
    (fetchPageLegacyAux (fun _ => AttemptOutcome.netError) 0).delays = [2000, 4000, 6000] ∧
    min (2000 * 2 ^ 2) 10000 = 8000 ∧ (6000 : Nat) ≠ 8000 := by
  refine ⟨?_, by decide, by decide⟩
  simp [fetchPageLegacyAux, backoffLegacy]

/-- C4 (amended): both fetchers retry a failed fetch at most 3 times
and return an empty record sequence (not a fault) after exhaustion;
before retry attempt k the turbo fetcher waits
min(2000 * 2^k, 10000) ms, while the legacy fetcher waits
2000 * (k + 1) ms (linear, uncapped). -/
theorem c4_fetch_retry_policy (attempts : Nat → AttemptOutcome) :
    (∃ n, n ≤ 3 ∧ (fetchPageAux attempts 0).delays =
        (List.range' 0 n).map backoffTurbo) ∧
    (∃ n, n ≤ 3 ∧ (fetchPageLegacyAux attempts 0).delays =
        (List.range' 0 n).map backoffLegacy) ∧
    ((∀ j, j ≤ 3 → ∀ c, attempts j ≠ AttemptOutcome.ok c) →
      (fetchPageAux attempts 0).result = FetchResult.ok [] ∧
      (fetchPageLegacyAux attempts 0).result = FetchResult.ok []) := by
  refine ⟨?_, ?_, ?_⟩
  · simpa using fetchPageAux_delays attempts 0
  · simpa using fetchPageLegacyAux_delays attempts 0
  · intro hfail
    have h' : ∀ j, 0 ≤ j → j ≤ 3 → ∀ c, attempts j ≠ AttemptOutcome.ok c :=
      fun j _ hj c => hfail j hj c
    exact ⟨(fetchPageAux_exhaust attempts 0 (by omega) h').1,
      (fetchPageLegacyAux_exhaust attempts 0 (by omega) h').1⟩

/-- C4, witness: the retry policy applied to an always-failing page
yields the empty record list in both fetchers. -/
theorem c4_fetch_retry_policy_inst :
    (fetchPageAux (fun _ => AttemptOutcome.netError) 0).result = FetchResult.ok [] ∧
    (fetchPageLegacyAux (fun _ => AttemptOutcome.netError) 0).result = FetchResult.ok [] :=
  (c4_fetch_retry_policy (fun _ => AttemptOutcome.netError)).2.2
    (fun _ _ _ h => AttemptOutcome.noConfusion h)

/-- C5: along any single range-scrape run (any batch sequence, any
per-page results), starting from any state with concurrency at least
3, the adaptive concurrency is monotonically non-increasing, stays at
least 3, and changes between consecutive batch boundaries only when
the failure count at the boundary exceeds 10, in which case the new
value is max(3, floor(C * 0.7)) and the adaptation resets the failure
counter; it is never adapted upward. -/
theorem c5_concurrency_monotone (oracle : Nat → List PropertyData)
    (batches : List (Nat × Nat)) (st : SchedState) (h3 : 3 ≤ st.currentConcurrency) :
    List.Chain'
      (fun a b =>
        b.currentConcurrency ≤ a.currentConcurrency ∧
        (b.currentConcurrency ≠ a.currentConcurrency →
          10 < a.failureCount ∧
          b.currentConcurrency = max 3 (a.currentConcurrency * 7 / 10) ∧
          (adaptConcurrency a).failureCount = 0))
      (stateTrace oracle st batches) ∧
    ∀ s ∈ stateTrace oracle st batches, 3 ≤ s.currentConcurrency := by
  induction batches generalizing st with
  | nil =>
    refine ⟨List.chain'_singleton st, ?_⟩
    intro s hs
    rw [stateTrace] at hs
    have hss : s = st := by simpa using hs
    exact hss ▸ h3
  | cons b bs ih =>
    have hconc : (runStep oracle st b).currentConcurrency =
        (adaptConcurrency st).currentConcurrency := runStep_concurrency oracle st b
    have h3' : 3 ≤ (runStep oracle st b).currentConcurrency := by
      rw [hconc]
      exact adaptConcurrency_floor st h3
    obtain ⟨ihc, ihm⟩ := ih (runStep oracle st b) h3'
    rw [stateTrace]
    refine ⟨List.chain'_cons'.mpr ⟨?_, ihc⟩, ?_⟩
    · intro y hy
      rw [stateTrace_head] at hy
      have hyy : runStep oracle st b = y := by simpa using hy
      subst hyy
      refine ⟨?_, ?_⟩
      · rw [hconc]
        exact adaptConcurrency_le st h3
      · intro hne
        rw [hconc] at hne ⊢
        obtain ⟨hf, hform, hreset⟩ := adaptConcurrency_change st hne
        exact ⟨hf, hform, hreset⟩
    · intro s hs
      rcases List.mem_cons.mp hs with hs | hs
      · exact hs ▸ h3
      · exact ihm s hs

/-- C5, witness: the invariant instantiated on a two-batch run from the
initial turbo state with 20-way concurrency. -/
theorem c5_concurrency_monotone_inst :
    3 ≤ (SchedState.mk 20 0 0).currentConcurrency ∧
    (List.Chain'
      (fun a b =>
        b.currentConcurrency ≤ a.currentConcurrency ∧
        (b.currentConcurrency ≠ a.currentConcurrency →
          10 < a.failureCount ∧
          b.currentConcurrency = max 3 (a.currentConcurrency * 7 / 10) ∧
          (adaptConcurrency a).failureCount = 0))
      (stateTrace (fun _ => []) (SchedState.mk 20 0 0) [(1, 12), (13, 24)]) ∧
    ∀ s ∈ stateTrace (fun _ => []) (SchedState.mk 20 0 0) [(1, 12), (13, 24)],
      3 ≤ s.currentConcurrency) :=
  ⟨by decide, c5_concurrency_monotone (fun _ => []) [(1, 12), (13, 24)]
    (SchedState.mk 20 0 0) (by decide)⟩

/-- C6: for every valid range s ≤ e the scheduler partitions the range
into contiguous batches of at most 50 pages and dispatches exactly
e − s + 1 page tasks, one per page number in [s, e], each exactly once;
pages outside the range are never dispatched.  (Retries are internal
to `fetchPage` — a recursive call with retryCount + 1 — never a new
dispatch.) -/
theorem c6_dispatch_exact (s e : Nat) (h : s ≤ e) :
    (dispatchedPages s e).length = e - s + 1 ∧
    (∀ p : Nat, (dispatchedPages s e).count p = if s ≤ p ∧ p ≤ e then 1 else 0) ∧
    ∀ b ∈ batchList s e, (batchPages b).length ≤ 50 := by
  have hd := dispatched_eq_range' s e
  refine ⟨?_, ?_, fun b hb => (batchList_size s e b hb).2⟩
  · rw [hd]
    simp
    omega
  · intro p
    rw [hd]
    by_cases hp : s ≤ p ∧ p ≤ e
    · rw [if_pos hp]
      refine List.count_eq_one_of_mem (List.nodup_range' s (e + 1 - s)) ?_
      rw [List.mem_range'_1]
      omega
    · rw [if_neg hp]
      refine List.count_eq_zero.mpr ?_
      rw [List.mem_range'_1]
      omega

/-- C6, witness: the dispatch property instantiated on the range
[1, 120] (three batches: 50, 50, 20 pages). -/
theorem c6_dispatch_exact_inst :
    (1 : Nat) ≤ 120 ∧
    ((dispatchedPages 1 120).length = 120 - 1 + 1 ∧
      (∀ p : Nat, (dispatchedPages 1 120).count p = if 1 ≤ p ∧ p ≤ 120 then 1 else 0) ∧
      ∀ b ∈ batchList 1 120, (batchPages b).length ≤ 50) :=
  ⟨by decide, c6_dispatch_exact 1 120 (by decide)⟩

/-- C7: for a fixed assignment of raw content to page numbers, replay
aggregation over the checkpointed pages in any enumeration order
(Contract B) and live aggregation in any completion order over the
same pages (Contract A) produce the same multiset of records. -/
theorem c7_replay_live_multiset_eq (content : Nat → RawContent)
    (enumOrder complOrder : List Nat) (h : enumOrder.Perm complOrder) :
    (combinePages (enumOrder.map content)).Perm (aggregateLive content complOrder) := by
  rw [combinePages_eq, aggregateLive, List.map_map]
  exact (h.map (fun p => parsePropertyData (content p))).flatten

/-- C7, witness: checkpoint enumeration order [3, 1, 2] versus live
completion order [2, 1, 3] over the same three pages. -/
theorem c7_replay_live_multiset_eq_inst :
    (List.Perm [3, 1, 2] [2, 1, 3]) ∧
    (combinePages ([3, 1, 2].map
        (fun p => if p = 1 then samplePage else RawContent.mk [naRow]))).Perm
      (aggregateLive (fun p => if p = 1 then samplePage else RawContent.mk [naRow])
        [2, 1, 3]) :=
  ⟨by decide,
    c7_replay_live_multiset_eq (fun p => if p = 1 then samplePage else RawContent.mk [naRow])
      [3, 1, 2] [2, 1, 3] (by decide)⟩

/-- C9: a page task increments the failure counter exactly when it
settles with zero records; when the fetch succeeds on the first
attempt the settled records are exactly the extraction of the fetched
content, so a successfully fetched page with zero qualifying rows is
counted as a failure (and every settlement increments the completed
counter by one). -/
theorem c9_failure_counter_iff_empty (st : SchedState) (attempts : Nat → AttemptOutcome) :
    ((settleTask st (fetchRecords attempts)).failureCount = st.failureCount + 1 ↔
      fetchRecords attempts = []) ∧
    (∀ content, attempts 0 = AttemptOutcome.ok content →
      fetchRecords attempts = parsePropertyData content) ∧
    (settleTask st (fetchRecords attempts)).completedPages = st.completedPages + 1 := by
  refine ⟨?_, fun content h => fetchRecords_first_ok attempts content h, rfl⟩
  constructor
  · intro hinc
    by_contra hne
    have hlen : (fetchRecords attempts).length ≠ 0 := by
      simpa [List.length_eq_zero] using hne
    simp [settleTask, hlen] at hinc
  · intro he
    simp [settleTask, he]

/-- C9, witness: a first-attempt fetch of a page with no qualifying
rows settles with zero records and bumps the failure counter from 5
to 6. -/
theorem c9_failure_counter_iff_empty_inst :
    (settleTask (SchedState.mk 20 5 9)
        (fetchRecords (fun _ => AttemptOutcome.ok (RawContent.mk [naRow])))).failureCount =
      5 + 1 :=
  (c9_failure_counter_iff_empty (SchedState.mk 20 5 9)
      (fun _ => AttemptOutcome.ok (RawContent.mk [naRow]))).1.mpr
    (by
      rw [(c9_failure_counter_iff_empty (SchedState.mk 20 5 9)
          (fun _ => AttemptOutcome.ok (RawContent.mk [naRow]))).2.1
        (RawContent.mk [naRow]) rfl]
      decide)

end ScrapDump
